import Mathlib

/-!
Verification of the pagination, search-escaping, JWT-authorization and
owner-scoping core of the express-template repository.

JavaScript values are embedded shallowly: numbers that the code validates to
be non-negative integers become `Nat`, strings that proofs analyse char by
char become `List Char`, other strings stay `String`, fallible code returns
`Except`, and the database behind knex becomes an explicit list of rows.
-/

set_option maxHeartbeats 1000000

namespace ExpressTemplate

/-! ### src/utils/pagination.js — buildPaginationMeta -/

/-- Shape of the object returned by `buildPaginationMeta`. -/
structure PaginationMeta where
  current_page : Nat
  total_pages : Nat
  total_items : Nat
  items_per_page : Nat
  has_next_page : Bool
  has_previous_page : Bool
  next_page : Option Nat
  previous_page : Option Nat
  deriving Repr, DecidableEq

/-- Embedding of `buildPaginationMeta(page, limit, totalItems)`.
`Math.ceil(totalItems / limit)` on non-negative integers with `limit ≥ 1`
is the natural-number expression `(totalItems + limit - 1) / limit`. -/
def buildPaginationMeta (page limit totalItems : Nat) : PaginationMeta :=
  let totalPages := (totalItems + limit - 1) / limit
  let hasNextPage := decide (page < totalPages)
  let hasPreviousPage := decide (1 < page)
  { current_page := page
    total_pages := totalPages
    total_items := totalItems
    items_per_page := limit
    has_next_page := hasNextPage
    has_previous_page := hasPreviousPage
    next_page := if hasNextPage then some (page + 1) else none
    previous_page := if hasPreviousPage then some (page - 1) else none }

/-- The total-page count computed by the code is at most `c` exactly when
`totalItems` fits into `c` pages of size `limit`: this is the Galois
characterisation of the ceiling of `totalItems / limit`. -/
lemma totalPages_le_iff (t l c : Nat) (hl : 1 ≤ l) :
    (t + l - 1) / l ≤ c ↔ t ≤ l * c := by
  have h : t + l - 1 = t + (l - 1) := by omega
  rw [h, Nat.div_le_iff_le_mul_add_pred hl]
  omega

/-- The natural-number expression used for `total_pages` agrees with the
mathematical ceiling of the rational `totalItems / limit`. -/
lemma totalPages_eq_ceil (t l : Nat) (hl : 1 ≤ l) :
    (((t + l - 1) / l : Nat) : ℤ) = ⌈(t : ℚ) / (l : ℚ)⌉ := by
  have hl0 : (0 : ℚ) < (l : ℚ) := by exact_mod_cast hl
  have hx0 : (0 : ℚ) ≤ (t : ℚ) / (l : ℚ) := by positivity
  apply le_antisymm
  · have hceil0 : (0 : ℤ) ≤ ⌈(t : ℚ) / (l : ℚ)⌉ := Int.ceil_nonneg hx0
    set c := (⌈(t : ℚ) / (l : ℚ)⌉).toNat with hc
    have hcc : (c : ℤ) = ⌈(t : ℚ) / (l : ℚ)⌉ := Int.toNat_of_nonneg hceil0
    have hdiv : (t : ℚ) / (l : ℚ) ≤ (c : ℚ) := by
      have := Int.le_ceil ((t : ℚ) / (l : ℚ))
      calc (t : ℚ) / (l : ℚ) ≤ (⌈(t : ℚ) / (l : ℚ)⌉ : ℚ) := this
        _ = (c : ℚ) := by exact_mod_cast hcc.symm
    have hq : (t : ℚ) ≤ (l : ℚ) * (c : ℚ) := by
      rw [div_le_iff₀ hl0] at hdiv
      linarith [hdiv]
    have hnat : t ≤ l * c := by exact_mod_cast hq
    have := (totalPages_le_iff t l c hl).mpr hnat
    omega
  · rw [Int.ceil_le]
    rw [div_le_iff₀ hl0]
    have hnat : t ≤ l * ((t + l - 1) / l) := (totalPages_le_iff t l _ hl).mp le_rfl
    push_cast
    rw [mul_comm]
    exact_mod_cast hnat

/-- C1: for every `page ≥ 1`, `limit ≥ 1`, `totalItems ≥ 0`,
`buildPaginationMeta` returns `total_pages = ceil(totalItems / limit)`
(so `totalItems = 0` gives `total_pages = 0`), `has_next_page` true exactly
when `page < total_pages`, `has_previous_page` true exactly when `page > 1`,
`next_page = page + 1` when there is a next page and `null` otherwise,
`previous_page = page - 1` when there is a previous page and `null`
otherwise; and the concrete query `page = 2, limit = 5, totalItems = 12`
yields exactly the metadata object of Scenario C. -/
theorem buildPaginationMeta_spec (page limit totalItems : Nat)
    (_hpage : 1 ≤ page) (hlimit : 1 ≤ limit) :
    (buildPaginationMeta page limit totalItems).current_page = page ∧
    (buildPaginationMeta page limit totalItems).total_items = totalItems ∧
    (buildPaginationMeta page limit totalItems).items_per_page = limit ∧
    (((buildPaginationMeta page limit totalItems).total_pages : ℤ) =
      ⌈(totalItems : ℚ) / (limit : ℚ)⌉) ∧
    (totalItems ≤ limit * (buildPaginationMeta page limit totalItems).total_pages ∧
      ∀ m, totalItems ≤ limit * m →
        (buildPaginationMeta page limit totalItems).total_pages ≤ m) ∧
    (totalItems = 0 → (buildPaginationMeta page limit totalItems).total_pages = 0) ∧
    ((buildPaginationMeta page limit totalItems).has_next_page = true ↔
      page < (buildPaginationMeta page limit totalItems).total_pages) ∧
    ((buildPaginationMeta page limit totalItems).has_previous_page = true ↔ 1 < page) ∧
    (buildPaginationMeta page limit totalItems).next_page =
      (if page < (buildPaginationMeta page limit totalItems).total_pages then
        some (page + 1) else none) ∧
    (buildPaginationMeta page limit totalItems).previous_page =
      (if 1 < page then some (page - 1) else none) ∧
    buildPaginationMeta 2 5 12 =
      ⟨2, 3, 12, 5, true, true, some 3, some 1⟩ := by
  refine ⟨rfl, rfl, rfl, ?_, ⟨?_, ?_⟩, ?_, ?_, ?_, ?_, ?_, ?_⟩
  · exact totalPages_eq_ceil totalItems limit hlimit
  · exact (totalPages_le_iff totalItems limit _ hlimit).mp le_rfl
  · intro m hm
    exact (totalPages_le_iff totalItems limit m hlimit).mpr hm
  · intro h0
    subst h0
    show (0 + limit - 1) / limit = 0
    apply Nat.div_eq_of_lt
    omega
  · simp [buildPaginationMeta]
  · simp [buildPaginationMeta]
  · simp only [buildPaginationMeta]
    by_cases h : page < (totalItems + limit - 1) / limit <;> simp [h]
  · simp only [buildPaginationMeta]
    by_cases h : 1 < page <;> simp [h]
  · rfl

/-- Witness for `buildPaginationMeta_spec` at `page = 2`, `limit = 5`,
`totalItems = 12`: the hypotheses hold and Scenario C's metadata follows. -/
theorem buildPaginationMeta_spec_witness :
    (buildPaginationMeta 2 5 12).total_pages = 3 ∧
    (buildPaginationMeta 2 5 12).has_next_page = true := by
  have h := buildPaginationMeta_spec 2 5 12 (by decide) (by decide)
  refine ⟨?_, ?_⟩
  · have := h.2.2.2.2.2.2.2.2.2.2
    rw [this]
  · exact (h.2.2.2.2.2.2.1).mpr (by decide)

/-! ### src/utils/sanitize.js — escapeIlike, against SQL ILIKE semantics -/

/-- The three characters the regex character class `[%_\\]` matches: the
wildcards and the escape character of the SQL LIKE pattern language. -/
def ilikeSpecial (c : Char) : Bool :=
  c == '%' || c == '_' || c == '\\'

/-- Embedding of `escapeIlike`: the regex replace
`str.replace(/[%_\\]/g, "\\$&")` prefixes every occurrence of `%`, `_`
or `\` with a backslash and leaves every other character unchanged. -/
def escapeIlike (s : List Char) : List Char :=
  s.flatMap fun c => if ilikeSpecial c then ['\\', c] else [c]

/-- Tokens of a parsed LIKE pattern: a literal character, the `%` wildcard
matching any sequence, and the `_` wildcard matching one character. -/
inductive PatTok where
  | lit (c : Char)
  | any
  | one
  deriving Repr, DecidableEq

/-- Parser for a SQL LIKE pattern with `\` as escape character: `\c` stands
for the literal character `c`, `%` and `_` are wildcards, every other
character stands for itself.  A pattern ending in a bare `\` is invalid
(PostgreSQL: "LIKE pattern must not end with escape character"). -/
def parsePattern : List Char → Option (List PatTok)
  | [] => some []
  | c :: rest =>
    if c = '\\' then
      match rest with
      | [] => none
      | d :: rest2 => (parsePattern rest2).map (PatTok.lit d :: ·)
    else if c = '%' then (parsePattern rest).map (PatTok.any :: ·)
    else if c = '_' then (parsePattern rest).map (PatTok.one :: ·)
    else (parsePattern rest).map (PatTok.lit c :: ·)

/-- Declarative matching of a parsed LIKE pattern against a text: a literal
token consumes exactly its character, `one` consumes exactly one arbitrary
character, and `any` lets the rest of the pattern match any suffix. -/
def likeMatches : List PatTok → List Char → Bool
  | [], t => t.isEmpty
  | PatTok.lit _ :: _, [] => false
  | PatTok.lit c :: ps, d :: t => c == d && likeMatches ps t
  | PatTok.one :: _, [] => false
  | PatTok.one :: ps, _ :: t => likeMatches ps t
  | PatTok.any :: ps, t => t.tails.any fun t2 => likeMatches ps t2

/-- ILIKE is LIKE after case-folding both the pattern and the text; the
folding function is a parameter (PostgreSQL uses `lower`, which fixes
`%`, `_` and `\` and maps wildcards to wildcards). -/
def ilikeMatches (fold : Char → Char) (pattern text : List Char) : Option Bool :=
  (parsePattern (pattern.map fold)).map fun ps =>
    likeMatches ps (text.map fold)

/-- Pattern actually built by `findManyPaginated` and `count` for a search
string: the template literal `%search%`. -/
def buildIlikePattern (search : List Char) : List Char :=
  '%' :: search ++ ['%']

lemma likeMatches_any_nil (t : List Char) :
    likeMatches [PatTok.any] t = true := by
  show (t.tails.any fun t2 => likeMatches [] t2) = true
  rw [List.any_eq_true]
  exact ⟨[], (List.mem_tails _ _).mpr List.nil_suffix, rfl⟩

/-- Matching a run of literal tokens followed by `%` succeeds exactly when
the literal characters form a prefix of the text. -/
lemma likeMatches_lits_any (s t : List Char) :
    likeMatches (s.map PatTok.lit ++ [PatTok.any]) t = true ↔ s <+: t := by
  induction s generalizing t with
  | nil =>
    simpa using likeMatches_any_nil t
  | cons c s ih =>
    cases t with
    | nil =>
      simp [likeMatches]
    | cons d t =>
      have h : likeMatches ((c :: s).map PatTok.lit ++ [PatTok.any]) (d :: t) =
          (c == d && likeMatches (s.map PatTok.lit ++ [PatTok.any]) t) := rfl
      rw [h, List.cons_prefix_cons, Bool.and_eq_true, beq_iff_eq, ih]

/-- Matching the pattern `% lits %` succeeds exactly when the literal
characters occur as a contiguous substring of the text. -/
lemma likeMatches_any_lits_any (s t : List Char) :
    likeMatches (PatTok.any :: (s.map PatTok.lit ++ [PatTok.any])) t = true ↔
      s <:+: t := by
  show (t.tails.any fun t2 => likeMatches (s.map PatTok.lit ++ [PatTok.any]) t2) = true ↔ _
  rw [List.any_eq_true, List.infix_iff_prefix_suffix]
  constructor
  · rintro ⟨t2, hmem, hm⟩
    exact ⟨t2, (likeMatches_lits_any s t2).mp hm, (List.mem_tails _ _).mp hmem⟩
  · rintro ⟨t2, hpre, hsuf⟩
    exact ⟨t2, (List.mem_tails _ _).mpr hsuf, (likeMatches_lits_any s t2).mpr hpre⟩

lemma parsePattern_pct (rest : List Char) :
    parsePattern ('%' :: rest) = (parsePattern rest).map (PatTok.any :: ·) := by
  rw [parsePattern.eq_def]
  rfl

lemma parsePattern_esc (d : Char) (rest : List Char) :
    parsePattern ('\\' :: d :: rest) = (parsePattern rest).map (PatTok.lit d :: ·) := by
  rw [parsePattern.eq_def]
  rfl

lemma parsePattern_lit (c : Char) (rest : List Char)
    (h : ilikeSpecial c = false) :
    parsePattern (c :: rest) = (parsePattern rest).map (PatTok.lit c :: ·) := by
  simp only [ilikeSpecial, Bool.or_eq_false_iff, beq_eq_false_iff_ne, ne_eq] at h
  rw [parsePattern.eq_def]
  simp [h.1.1, h.1.2, h.2]

/-- Parsing an escaped string turns every source character into the
corresponding literal token, regardless of what follows. -/
lemma parsePattern_escape_append (s rest : List Char) :
    parsePattern (escapeIlike s ++ rest) =
      (parsePattern rest).map (s.map PatTok.lit ++ ·) := by
  induction s with
  | nil =>
    cases h : parsePattern rest <;> simp [escapeIlike, h]
  | cons c s ih =>
    have hesc : escapeIlike (c :: s) =
        (if ilikeSpecial c then ['\\', c] else [c]) ++ escapeIlike s :=
      List.flatMap_cons ..
    by_cases hc : ilikeSpecial c = true
    · rw [hesc, if_pos hc]
      show parsePattern ('\\' :: c :: (escapeIlike s ++ rest)) = _
      rw [parsePattern_esc, ih, Option.map_map]
      cases parsePattern rest <;> simp
    · rw [hesc, if_neg hc]
      show parsePattern (c :: (escapeIlike s ++ rest)) = _
      rw [parsePattern_lit c _ (by simpa using hc), ih, Option.map_map]
      cases parsePattern rest <;> simp

/-- Escaping commutes with any case folding that fixes the escape
character and preserves the property of being a pattern operator. -/
lemma escapeIlike_map_fold (fold : Char → Char)
    (hb : fold '\\' = '\\')
    (hs : ∀ c, ilikeSpecial (fold c) = ilikeSpecial c) (s : List Char) :
    (escapeIlike s).map fold = escapeIlike (s.map fold) := by
  induction s with
  | nil => rfl
  | cons c s ih =>
    have h1 : escapeIlike (c :: s) =
        (if ilikeSpecial c then ['\\', c] else [c]) ++ escapeIlike s :=
      List.flatMap_cons ..
    have h2 : escapeIlike (fold c :: s.map fold) =
        (if ilikeSpecial (fold c) then ['\\', fold c] else [fold c]) ++
          escapeIlike (s.map fold) :=
      List.flatMap_cons ..
    rw [List.map_cons, h1, h2, List.map_append, ih, hs c]
    by_cases hc : ilikeSpecial c = true
    · simp [hc, hb]
    · simp [hc]

/-- C2: for every search string `s` and every case folding `fold` that
fixes the three pattern-operator characters and preserves specialness
(PostgreSQL's `lower`, or the identity for plain LIKE), the escaped string
embedded in the `%escaped%` pattern built by `findManyPaginated` parses to
`%`, the literal characters of `s`, `%` — and it matches a column value
exactly when `s` occurs literally (up to the case folding) as a contiguous
substring of that value, never by wildcard expansion. -/
theorem escapeIlike_literal_match (fold : Char → Char) (s t : List Char)
    (hb : fold '\\' = '\\') (hp : fold '%' = '%')
    (hs : ∀ c, ilikeSpecial (fold c) = ilikeSpecial c) :
    parsePattern ((buildIlikePattern (escapeIlike s)).map fold) =
      some (PatTok.any :: ((s.map fold).map PatTok.lit ++ [PatTok.any])) ∧
    ilikeMatches fold (buildIlikePattern (escapeIlike s)) t =
      some (decide ((s.map fold) <:+: (t.map fold))) := by
  have hmap : (buildIlikePattern (escapeIlike s)).map fold =
      '%' :: (escapeIlike (s.map fold) ++ ['%']) := by
    show ((('%' : Char) :: (escapeIlike s ++ ['%'])).map fold) = _
    rw [List.map_cons, List.map_append, hp, escapeIlike_map_fold fold hb hs,
      List.map_cons, List.map_nil, hp]
  have hparse : parsePattern ((buildIlikePattern (escapeIlike s)).map fold) =
      some (PatTok.any :: ((s.map fold).map PatTok.lit ++ [PatTok.any])) := by
    rw [hmap, parsePattern_pct, parsePattern_escape_append]
    have h1 : parsePattern ['%'] = some [PatTok.any] := by
      rw [parsePattern_pct]
      rfl
    rw [h1]
    rfl
  refine ⟨hparse, ?_⟩
  rw [ilikeMatches, hparse, Option.map_some']
  congr 1
  have hiff := likeMatches_any_lits_any (s.map fold) (t.map fold)
  by_cases hinf : (s.map fold) <:+: (t.map fold)
  · rw [decide_eq_true hinf]
    exact hiff.mpr hinf
  · rw [decide_eq_false hinf]
    cases hm : likeMatches (PatTok.any :: ((s.map fold).map PatTok.lit ++ [PatTok.any]))
        (t.map fold)
    · rfl
    · exact absurd (hiff.mp hm) hinf

/-- Witness for `escapeIlike_literal_match` with the identity folding: the
escaped search `50%_off` matches the text `big 50%_off sale`, which contains
it literally, and does not match `50xoff`, which only a wildcard expansion
of the raw pattern `%50%_off%` would accept. -/
theorem escapeIlike_literal_match_witness :
    ilikeMatches (fun c => c) (buildIlikePattern (escapeIlike "50%_off".toList))
        "big 50%_off sale".toList = some true ∧
    ilikeMatches (fun c => c) (buildIlikePattern (escapeIlike "50%_off".toList))
        "50xoff".toList = some false ∧
    ilikeMatches (fun c => c) (buildIlikePattern "50%_off".toList)
        "50xoff".toList = some true := by
  refine ⟨?_, ?_, ?_⟩
  · have h := (escapeIlike_literal_match (fun c => c) "50%_off".toList
      "big 50%_off sale".toList rfl rfl (fun _ => rfl)).2
    rw [h]
    congr 1
  · have h := (escapeIlike_literal_match (fun c => c) "50%_off".toList
      "50xoff".toList rfl rfl (fun _ => rfl)).2
    rw [h]
    congr 1
  · decide

/-! ### src/utils/jwt.js — token issue and verification -/

/-- Payload of a signed token: the user id passed to `jwt.sign`, plus the
issued-at and expiry claims that the `expiresIn` option adds. -/
structure JwtPayload where
  id : String
  iat : Nat
  exp : Nat
  deriving Repr, DecidableEq

/-- A token carries its payload and the signature the HS256 primitive
computed from the signing secret. -/
structure JwtToken where
  payload : JwtPayload
  sig : Nat
  deriving Repr, DecidableEq

/-- Failure modes the `jsonwebtoken` library reports: `JsonWebTokenError`
for a malformed structure or bad signature, `TokenExpiredError` for a
token past its expiry claim. -/
inductive JwtError where
  | jsonWebTokenError
  | tokenExpiredError
  deriving Repr, DecidableEq

/-- The token configuration read from `process.env`: a distinct secret and
a distinct lifetime per token kind. -/
structure JwtEnv where
  accessTokenSecret : Nat
  refreshTokenSecret : Nat
  accessTokenExpiresIn : Nat
  refreshTokenExpiresIn : Nat

/-- Embedding of `jwt.sign(payload, secret, {algorithm: "HS256", expiresIn})`:
`mac` stands for the fixed HS256 signing primitive applied to the secret
and the serialized payload. -/
def jwtSign (mac : Nat → JwtPayload → Nat) (secret now lifetime : Nat) (userId : String) :
    JwtToken :=
  let payload : JwtPayload := ⟨userId, now, now + lifetime⟩
  ⟨payload, mac secret payload⟩

/-- Embedding of `jwt.verify(token, secret, {algorithms: ["HS256"]})`: the
signature is checked against the supplied secret first; only a token whose
signature verifies is then checked for expiry. -/
def jwtVerify (mac : Nat → JwtPayload → Nat) (secret now : Nat) (t : JwtToken) :
    Except JwtError JwtPayload :=
  if t.sig ≠ mac secret t.payload then .error .jsonWebTokenError
  else if t.payload.exp ≤ now then .error .tokenExpiredError
  else .ok t.payload

/-- Embedding of `generateAccessToken(id)`: signs `{id}` with `ACCESS_TOKEN_SECRET` and
`ACCESS_TOKEN_EXPIRES_IN`. -/
def generateAccessToken (mac : Nat → JwtPayload → Nat) (env : JwtEnv)
    (now : Nat) (userId : String) : JwtToken :=
  jwtSign mac env.accessTokenSecret now env.accessTokenExpiresIn userId

/-- Embedding of `generateRefreshToken(id)`: signs `{id}` with `REFRESH_TOKEN_SECRET` and
`REFRESH_TOKEN_EXPIRES_IN`. -/
def generateRefreshToken (mac : Nat → JwtPayload → Nat) (env : JwtEnv)
    (now : Nat) (userId : String) : JwtToken :=
  jwtSign mac env.refreshTokenSecret now env.refreshTokenExpiresIn userId

/-- Embedding of `verifyAccessToken(token)`: verifies against `ACCESS_TOKEN_SECRET`. -/
def verifyAccessToken (mac : Nat → JwtPayload → Nat) (env : JwtEnv)
    (now : Nat) (t : JwtToken) : Except JwtError JwtPayload :=
  jwtVerify mac env.accessTokenSecret now t

/-- Embedding of `verifyRefreshToken(token)`: verifies against `REFRESH_TOKEN_SECRET`. -/
def verifyRefreshToken (mac : Nat → JwtPayload → Nat) (env : JwtEnv)
    (now : Nat) (t : JwtToken) : Except JwtError JwtPayload :=
  jwtVerify mac env.refreshTokenSecret now t

/-- C3: when the two configured secrets differ and the signing primitive
binds the key (different keys never produce the same signature on the same
payload), a refresh token fails `verifyAccessToken` and an access token
fails `verifyRefreshToken` with a signature error, at every verification
time — even though each token verifies under its own kind before expiry,
showing its signature is correct for its own key. -/
theorem token_kind_isolation (mac : Nat → JwtPayload → Nat) (env : JwtEnv)
    (hmac : ∀ s1 s2 p, mac s1 p = mac s2 p → s1 = s2)
    (hsec : env.accessTokenSecret ≠ env.refreshTokenSecret)
    (userId : String) (issuedAt now : Nat) :
    verifyAccessToken mac env now (generateRefreshToken mac env issuedAt userId) =
      .error .jsonWebTokenError ∧
    verifyRefreshToken mac env now (generateAccessToken mac env issuedAt userId) =
      .error .jsonWebTokenError ∧
    (now < issuedAt + env.accessTokenExpiresIn →
      verifyAccessToken mac env now (generateAccessToken mac env issuedAt userId) =
        .ok ⟨userId, issuedAt, issuedAt + env.accessTokenExpiresIn⟩) ∧
    (now < issuedAt + env.refreshTokenExpiresIn →
      verifyRefreshToken mac env now (generateRefreshToken mac env issuedAt userId) =
        .ok ⟨userId, issuedAt, issuedAt + env.refreshTokenExpiresIn⟩) := by
  refine ⟨?_, ?_, ?_, ?_⟩
  · have hne : mac env.refreshTokenSecret
        ⟨userId, issuedAt, issuedAt + env.refreshTokenExpiresIn⟩ ≠
        mac env.accessTokenSecret
        ⟨userId, issuedAt, issuedAt + env.refreshTokenExpiresIn⟩ := by
      intro h
      exact hsec (hmac _ _ _ h.symm)
    simp [verifyAccessToken, generateRefreshToken, jwtVerify, jwtSign, hne]
  · have hne : mac env.accessTokenSecret
        ⟨userId, issuedAt, issuedAt + env.accessTokenExpiresIn⟩ ≠
        mac env.refreshTokenSecret
        ⟨userId, issuedAt, issuedAt + env.accessTokenExpiresIn⟩ := by
      intro h
      exact hsec (hmac _ _ _ h)
    simp [verifyRefreshToken, generateAccessToken, jwtVerify, jwtSign, hne]
  · intro hnow
    simp [verifyAccessToken, generateAccessToken, jwtVerify, jwtSign, Nat.not_le.mpr hnow]
  · intro hnow
    simp [verifyRefreshToken, generateRefreshToken, jwtVerify, jwtSign, Nat.not_le.mpr hnow]

/-- Witness for `token_kind_isolation`: with a key-binding signing
primitive, distinct secrets 1 and 2, a seeded user id, issue time 0 and check time 5,
cross-kind verification fails and same-kind verification succeeds. -/
theorem token_kind_isolation_witness :
    verifyAccessToken (fun s _ => s) ⟨1, 2, 10, 100⟩ 5
      (generateRefreshToken (fun s _ => s) ⟨1, 2, 10, 100⟩ 0 "u7") =
      .error .jsonWebTokenError ∧
    verifyRefreshToken (fun s _ => s) ⟨1, 2, 10, 100⟩ 5
      (generateRefreshToken (fun s _ => s) ⟨1, 2, 10, 100⟩ 0 "u7") = .ok ⟨"u7", 0, 100⟩ := by
  have h := token_kind_isolation (fun s _ => s) ⟨1, 2, 10, 100⟩
    (fun _ _ _ hp => hp) (by decide) "u7" 0 5
  exact ⟨h.1, h.2.2.2 (by decide)⟩

/-! ### src/middlewares/authorization.js — the two token gates -/

/-- Header each gate reads its token from. -/
def accessTokenHeaderName : String := "x-access-token"

/-- Header the refresh gate reads its token from. -/
def refreshTokenHeaderName : String := "x-refresh-token"

/-- Result of a `verify*Token` call as the middleware's catch block
discriminates it by `error.name`. -/
inductive VerifyOutcome (ε : Type) where
  | ok (decoded : JwtPayload)
  | jsonWebTokenError
  | tokenExpiredError
  | otherError (e : ε)

/-- Observable result of running a gate: accepted with the decoded identity
bound to `req.user` for downstream handlers, rejected with an HTTP status
and message (an `HttpError` handed to `next`), or some other error
propagated unchanged via `next(error)`. -/
inductive GateOutcome (ε : Type) where
  | accepted (user : JwtPayload)
  | rejected (status : Nat) (message : String)
  | propagated (e : ε)

/-- Embedding of `requireAccessToken`: reads `req.headers["x-access-token"]`;
a missing header or an empty-string header is falsy in JavaScript, so both
yield the 401 "No token provided" rejection; otherwise the outcome follows
the catch block's discrimination of the verifier's result. -/
def requireAccessToken {ε : Type} (verify : String → VerifyOutcome ε)
    (headers : String → Option String) : GateOutcome ε :=
  match headers accessTokenHeaderName with
  | none => .rejected 401 "No token provided"
  | some tok =>
    if tok = "" then .rejected 401 "No token provided"
    else
      match verify tok with
      | .ok decoded => .accepted decoded
      | .jsonWebTokenError => .rejected 401 "Invalid token"
      | .tokenExpiredError => .rejected 401 "Token expired"
      | .otherError e => .propagated e

/-- Embedding of `requireRefreshToken`: identical shape, but reading
`req.headers["x-refresh-token"]` and using the refresh verifier. -/
def requireRefreshToken {ε : Type} (verify : String → VerifyOutcome ε)
    (headers : String → Option String) : GateOutcome ε :=
  match headers refreshTokenHeaderName with
  | none => .rejected 401 "No token provided"
  | some tok =>
    if tok = "" then .rejected 401 "No token provided"
    else
      match verify tok with
      | .ok decoded => .accepted decoded
      | .jsonWebTokenError => .rejected 401 "Invalid token"
      | .tokenExpiredError => .rejected 401 "Token expired"
      | .otherError e => .propagated e

/-- C4: each gate reads its own dedicated header — the two names are
distinct from each other and from the generic bearer `authorization`
header, and each gate's outcome depends only on its own header — and the
outcome is exactly: missing (or empty, hence falsy) header → 401
"No token provided"; malformed token → 401 "Invalid token"; expired
token → 401 "Token expired"; any other verification error propagated
as-is; valid token → accepted with the decoded identity bound for
downstream handlers. -/
theorem authorization_gate_contract {ε : Type}
    (verifyA verifyR : String → VerifyOutcome ε)
    (headers : String → Option String) :
    (accessTokenHeaderName ≠ refreshTokenHeaderName ∧
      accessTokenHeaderName ≠ "authorization" ∧
      refreshTokenHeaderName ≠ "authorization") ∧
    (∀ headers2 : String → Option String,
      headers accessTokenHeaderName = headers2 accessTokenHeaderName →
        requireAccessToken verifyA headers = requireAccessToken verifyA headers2) ∧
    (∀ headers2 : String → Option String,
      headers refreshTokenHeaderName = headers2 refreshTokenHeaderName →
        requireRefreshToken verifyR headers = requireRefreshToken verifyR headers2) ∧
    ((headers accessTokenHeaderName = none ∨ headers accessTokenHeaderName = some "") →
      requireAccessToken verifyA headers = .rejected 401 "No token provided") ∧
    (∀ tok, headers accessTokenHeaderName = some tok → tok ≠ "" →
      (∀ d, verifyA tok = .ok d → requireAccessToken verifyA headers = .accepted d) ∧
      (verifyA tok = .jsonWebTokenError →
        requireAccessToken verifyA headers = .rejected 401 "Invalid token") ∧
      (verifyA tok = .tokenExpiredError →
        requireAccessToken verifyA headers = .rejected 401 "Token expired") ∧
      (∀ e, verifyA tok = .otherError e →
        requireAccessToken verifyA headers = .propagated e)) ∧
    ((headers refreshTokenHeaderName = none ∨ headers refreshTokenHeaderName = some "") →
      requireRefreshToken verifyR headers = .rejected 401 "No token provided") ∧
    (∀ tok, headers refreshTokenHeaderName = some tok → tok ≠ "" →
      (∀ d, verifyR tok = .ok d → requireRefreshToken verifyR headers = .accepted d) ∧
      (verifyR tok = .jsonWebTokenError →
        requireRefreshToken verifyR headers = .rejected 401 "Invalid token") ∧
      (verifyR tok = .tokenExpiredError →
        requireRefreshToken verifyR headers = .rejected 401 "Token expired") ∧
      (∀ e, verifyR tok = .otherError e →
        requireRefreshToken verifyR headers = .propagated e)) := by
  refine ⟨⟨by decide, by decide, by decide⟩, ?_, ?_, ?_, ?_, ?_, ?_⟩
  · intro headers2 h
    simp [requireAccessToken, h]
  · intro headers2 h
    simp [requireRefreshToken, h]
  · rintro (h | h) <;> simp [requireAccessToken, h]
  · intro tok htok hne
    refine ⟨?_, ?_, ?_, ?_⟩ <;>
      first
        | (intro d hv; simp [requireAccessToken, htok, hne, hv])
        | (intro hv; simp [requireAccessToken, htok, hne, hv])
  · rintro (h | h) <;> simp [requireRefreshToken, h]
  · intro tok htok hne
    refine ⟨?_, ?_, ?_, ?_⟩ <;>
      first
        | (intro d hv; simp [requireRefreshToken, htok, hne, hv])
        | (intro hv; simp [requireRefreshToken, htok, hne, hv])

/-- Witness for `authorization_gate_contract`: a request carrying a
malformed token in `x-access-token` and nothing in `x-refresh-token` is
rejected with "Invalid token" by the access gate and with
"No token provided" by the refresh gate. -/
theorem authorization_gate_contract_witness :
    requireAccessToken (ε := Unit) (fun _ => .jsonWebTokenError)
      (fun h => if h = "x-access-token" then some "garbage" else none) =
      .rejected 401 "Invalid token" ∧
    requireRefreshToken (ε := Unit) (fun _ => .jsonWebTokenError)
      (fun h => if h = "x-access-token" then some "garbage" else none) =
      .rejected 401 "No token provided" := by
  have h := authorization_gate_contract (ε := Unit)
    (fun _ => .jsonWebTokenError) (fun _ => .jsonWebTokenError)
    (fun h => if h = "x-access-token" then some "garbage" else none)
  constructor
  · exact ((h.2.2.2.2.1 "garbage" (by decide) (by decide)).2.1) rfl
  · exact h.2.2.2.2.2.1 (Or.inl (by decide))

/-! ### src/utils/pagination.js — executePaginatedQuery -/

/-- Validated pagination parameters, as produced by
`validatePaginationQuery`.  The search string is kept as a character list
for character-level reasoning. -/
structure PaginationParams where
  page : Nat
  limit : Nat
  sort_by : String
  sort_order : String
  search : List Char
  deriving Repr, DecidableEq

/-- The search options object: either empty (both fields at the model
functions' defaults) or carrying the sanitized search and the searchable
columns. -/
structure SearchOptions where
  search : List Char
  searchColumns : List String
  deriving Repr, DecidableEq

/-- The options object passed to the find function: limit, offset, the
orderBy list, and the spread search options. -/
structure FindOptions where
  limit : Nat
  offset : Nat
  orders : List (String × String)
  search : List Char
  searchColumns : List String
  deriving Repr, DecidableEq

/-- Shape of the value `executePaginatedQuery` resolves with. -/
structure PaginatedResult (ρ : Type) where
  data : List ρ
  pagination : PaginationMeta

/-- Embedding of `executePaginatedQuery`: computes `offset = (page-1)*limit`,
escapes a non-empty search, builds search options only when both the
sanitized search and the searchable-column list are non-empty, runs the
count and the find (their concurrent execution has no observable effect on
the result, both being functions of disjoint inputs), and assembles the
metadata.  `parseInt` of the count is modelled by the count function
returning the number directly. -/
def executePaginatedQuery {γ ρ : Type}
    (countFn : γ → SearchOptions → Nat)
    (findFn : γ → FindOptions → List ρ)
    (conditions : γ) (params : PaginationParams)
    (searchableColumns : List String := []) : PaginatedResult ρ :=
  let offset := (params.page - 1) * params.limit
  let sanitizedSearch := if params.search ≠ [] then escapeIlike params.search else []
  let searchOptions : SearchOptions :=
    if sanitizedSearch ≠ [] ∧ searchableColumns ≠ [] then
      ⟨sanitizedSearch, searchableColumns⟩
    else ⟨[], []⟩
  let countResult := countFn conditions searchOptions
  let data := findFn conditions
    ⟨params.limit, offset, [(params.sort_by, params.sort_order)],
      searchOptions.search, searchOptions.searchColumns⟩
  ⟨data, buildPaginationMeta params.page params.limit countResult⟩

/-- C5: for every validated query with `page ≥ 1` and `limit ≥ 1`, the
options `executePaginatedQuery` hands to the fetch function carry
`offset = (page - 1) * limit` — so the fetch skips exactly the first
`page - 1` full pages — and `page = 1` gives `offset = 0`. -/
theorem executePaginatedQuery_offset {γ ρ : Type}
    (countFn : γ → SearchOptions → Nat) (findFn : γ → FindOptions → List ρ)
    (conditions : γ) (params : PaginationParams)
    (searchableColumns : List String)
    (hpage : 1 ≤ params.page) :
    ∃ opts : FindOptions,
      (executePaginatedQuery countFn findFn conditions params
        searchableColumns).data = findFn conditions opts ∧
      opts.offset = (params.page - 1) * params.limit ∧
      opts.limit = params.limit ∧
      opts.offset + opts.limit = params.page * params.limit ∧
      (params.page = 1 → opts.offset = 0) := by
  refine ⟨_, rfl, rfl, rfl, ?_, ?_⟩
  · obtain ⟨q, hq⟩ : ∃ q, params.page = q + 1 := ⟨params.page - 1, by omega⟩
    rw [hq]
    simp [Nat.succ_mul]
  · intro h1
    rw [h1]
    simp

/-- Witness for `executePaginatedQuery_offset` at `page = 3`, `limit = 5`
with a fetch function that reveals the offset it receives. -/
theorem executePaginatedQuery_offset_witness :
    ∃ opts : FindOptions,
      (executePaginatedQuery (γ := Unit) (ρ := Nat) (fun _ _ => 0)
        (fun _ o => [o.offset]) () ⟨3, 5, "updated_at", "desc", []⟩ []).data =
        [opts.offset] ∧
      opts.offset = (3 - 1) * 5 ∧
      opts.limit = 5 ∧
      opts.offset + opts.limit = 3 * 5 ∧
      (3 = 1 → opts.offset = 0) :=
  executePaginatedQuery_offset (fun _ _ => 0) (fun _ o => [o.offset]) ()
    ⟨3, 5, "updated_at", "desc", []⟩ [] (by decide)

/-! ### src/models/todos.js — knex operations over an explicit row list -/

/-- A row of the `todos` table (see the migration): `id` and `user_id` are
UUID strings, timestamps are abstract clock values. -/
structure TodoRow where
  id : String
  user_id : String
  title : String
  description : Option String
  is_completed : Bool
  created_at : Nat
  updated_at : Nat
  deriving Repr, DecidableEq

/-- A `.where(conditions)` object: every key that is present must equal the
row's column.  The controllers pass `{id, user_id}` or `{user_id}`. -/
structure TodoConds where
  id : Option String := none
  user_id : Option String := none
  deriving Repr, DecidableEq

/-- A row satisfies a conditions object when every provided key matches. -/
def condsMatch (conds : TodoConds) (r : TodoRow) : Bool :=
  (conds.id.all fun v => v == r.id) && (conds.user_id.all fun v => v == r.user_id)

/-- Embedding of `findOne(conditions)`: `select.where(conditions).first()`. -/
def todoFindOne (conds : TodoConds) (db : List TodoRow) : Option TodoRow :=
  (db.filter (condsMatch conds)).head?

/-- The column assignments `updateTodo` passes to `update`: `title` is
required by the body schema; an absent optional field is `undefined` in the
update object and knex leaves the column unchanged. -/
structure TodoPatch where
  title : String
  description : Option String
  is_completed : Option Bool
  updated_at : Nat
  deriving Repr, DecidableEq

/-- Column-wise application of an update object to a row. -/
def applyPatch (p : TodoPatch) (r : TodoRow) : TodoRow :=
  { r with
    title := p.title
    description := (p.description.map some).getD r.description
    is_completed := p.is_completed.getD r.is_completed
    updated_at := p.updated_at }

/-- Embedding of `update(conditions, todo)`: `update(todo).where(conditions).returning(columns)`
— the new table state paired with the list of updated rows. -/
def todoUpdate (conds : TodoConds) (p : TodoPatch) (db : List TodoRow) :
    List TodoRow × List TodoRow :=
  (db.map fun r => if condsMatch conds r then applyPatch p r else r,
   (db.filter (condsMatch conds)).map (applyPatch p))

/-- Embedding of `remove(conditions)`: `delete().where(conditions)` — the new table
state paired with the number of deleted rows. -/
def todoRemove (conds : TodoConds) (db : List TodoRow) :
    List TodoRow × Nat :=
  (db.filter fun r => !condsMatch conds r,
   (db.filter (condsMatch conds)).length)

/-- Embedding of `removeMany(ids, conditions)`:
`delete().whereIn("id", ids).andWhere(conditions)`. -/
def todoRemoveMany (ids : List String) (conds : TodoConds) (db : List TodoRow) :
    List TodoRow × Nat :=
  (db.filter fun r => !(ids.contains r.id && condsMatch conds r),
   (db.filter fun r => ids.contains r.id && condsMatch conds r).length)

/-- When no row of the table satisfies the conditions, `findOne` resolves
to nothing, `update` leaves the table unchanged and returns no rows, and
`remove` leaves the table unchanged and deletes zero rows. -/
lemma todo_ops_of_no_match (c : TodoConds) (p : TodoPatch) (db : List TodoRow)
    (h : ∀ r ∈ db, condsMatch c r = false) :
    todoFindOne c db = none ∧
    todoUpdate c p db = (db, []) ∧
    todoRemove c db = (db, 0) := by
  have hfil : db.filter (condsMatch c) = [] := by
    rw [List.filter_eq_nil_iff]
    intro r hr
    simp [h r hr]
  refine ⟨?_, ?_, ?_⟩
  · rw [todoFindOne, hfil]
    rfl
  · rw [todoUpdate, hfil]
    refine Prod.ext ?_ rfl
    show db.map _ = db
    calc db.map (fun r => if condsMatch c r then applyPatch p r else r)
        = db.map id := List.map_congr_left fun r hr => by simp [h r hr]
      _ = db := List.map_id db
  · rw [todoRemove, hfil]
    refine Prod.ext ?_ rfl
    show db.filter _ = db
    rw [List.filter_eq_self]
    intro r hr
    simp [h r hr]

/-- C7: a todo owned by identity A, addressed by a different identity B
through the conditions `{id, user_id: B}` every controller uses, behaves
for `findOne`, `update` and `remove` exactly like a record that does not
exist: nothing is found, nothing is updated, nothing is deleted, and each
result coincides with the result for an id absent from the table. -/
theorem todo_owner_scoping (db : List TodoRow) (tid A B : String)
    (p : TodoPatch) (nid : String)
    (howner : ∀ r ∈ db, r.id = tid → r.user_id = A)
    (hAB : B ≠ A)
    (hnid : ∀ r ∈ db, r.id ≠ nid) :
    (todoFindOne ⟨some tid, some B⟩ db = none ∧
      todoUpdate ⟨some tid, some B⟩ p db = (db, []) ∧
      todoRemove ⟨some tid, some B⟩ db = (db, 0)) ∧
    (todoFindOne ⟨some tid, some B⟩ db = todoFindOne ⟨some nid, some B⟩ db ∧
      todoUpdate ⟨some tid, some B⟩ p db = todoUpdate ⟨some nid, some B⟩ p db ∧
      todoRemove ⟨some tid, some B⟩ db = todoRemove ⟨some nid, some B⟩ db) := by
  have hB : ∀ r ∈ db, condsMatch ⟨some tid, some B⟩ r = false := by
    intro r hr
    simp only [condsMatch, Option.all_some, Bool.and_eq_false_iff, beq_eq_false_iff_ne,
      ne_eq]
    by_cases hid : tid = r.id
    · right
      intro hBu
      exact hAB (hBu ▸ (howner r hr hid.symm).symm).symm
    · left
      exact hid
  have hN : ∀ r ∈ db, condsMatch ⟨some nid, some B⟩ r = false := by
    intro r hr
    simp only [condsMatch, Option.all_some, Bool.and_eq_false_iff, beq_eq_false_iff_ne,
      ne_eq]
    left
    exact fun he => hnid r hr he.symm
  obtain ⟨f1, u1, r1⟩ := todo_ops_of_no_match ⟨some tid, some B⟩ p db hB
  obtain ⟨f2, u2, r2⟩ := todo_ops_of_no_match ⟨some nid, some B⟩ p db hN
  exact ⟨⟨f1, u1, r1⟩, ⟨f1.trans f2.symm, u1.trans u2.symm, r1.trans r2.symm⟩⟩

/-- Witness for `todo_owner_scoping`: a one-row table owned by user A,
addressed by user B with the row's own id. -/
theorem todo_owner_scoping_witness :
    todoFindOne ⟨some "t1", some "userB"⟩
        [⟨"t1", "userA", "milk", none, false, 0, 0⟩] = none ∧
    todoRemove ⟨some "t1", some "userB"⟩
        [⟨"t1", "userA", "milk", none, false, 0, 0⟩] =
      ([⟨"t1", "userA", "milk", none, false, 0, 0⟩], 0) := by
  have h := todo_owner_scoping [⟨"t1", "userA", "milk", none, false, 0, 0⟩]
    "t1" "userA" "userB" ⟨"milk", none, none, 1⟩ "t2"
    (by intro r hr _; simp at hr; rw [hr]) (by decide)
    (by intro r hr; simp at hr; rw [hr]; decide)
  exact ⟨h.1.1, h.1.2.2⟩

/-! ### Todos controller — bulk delete and its query validation -/

/-- The `HttpError` class: an HTTP status code and a message, rendered by
the error-handling middleware as status plus `message, data: null` body. -/
structure HttpError where
  status : Nat
  message : String
  deriving Repr, DecidableEq

/-- JavaScript `ids.split(",")` over a character list: splits at every
comma, keeping empty chunks. -/
def splitOnComma : List Char → List (List Char)
  | [] => [[]]
  | c :: rest =>
    match splitOnComma rest with
    | [] => if c = ',' then [[], []] else [[c]]
    | g :: gs => if c = ',' then [] :: g :: gs else (c :: g) :: gs

/-- JavaScript `String.prototype.trim`: whitespace stripped from both
ends. -/
def trimChars (s : List Char) : List Char :=
  ((s.dropWhile Char.isWhitespace).reverse.dropWhile Char.isWhitespace).reverse

/-- Character class `[0-9a-f]` with the `i` flag. -/
def isHexChar (c : Char) : Bool :=
  c.isDigit || ('a' ≤ c && c ≤ 'f') || ('A' ≤ c && c ≤ 'F')

/-- The anchored UUID regex of `deleteTodosQuerySchema`:
`/^[0-9a-f]{8}-[0-9a-f]{4}-[0-9a-f]{4}-[0-9a-f]{4}-[0-9a-f]{12}$/i` —
36 characters, hyphens at positions 8, 13, 18 and 23, hex digits
everywhere else. -/
def uuidTest (s : List Char) : Bool :=
  decide (s.length = 36) &&
    (List.range 36).all fun i =>
      if i = 8 || i = 13 || i = 18 || i = 23 then decide (s.getD i ' ' = '-')
      else isHexChar (s.getD i ' ')

/-- Message attached to `any.invalid` by `deleteTodosQuerySchema`. -/
def deleteTodosIdsMessage : String := "ids must be 1-50 comma-separated valid UUIDs"

/-- Embedding of `deleteTodosQuerySchema.validate` on the `ids` query
value: joi's `string().required()` rejects a missing or empty value, then
the custom rule splits on commas, trims each chunk, rejects more than 50
chunks, and rejects any chunk that fails the UUID regex (the source loop
stops at the first bad chunk; acceptance and the produced error are the
same either way). -/
def validateDeleteTodosQuery (ids : Option (List Char)) :
    Except HttpError (List (List Char)) :=
  match ids with
  | none => .error ⟨400, "\"ids\" is required"⟩
  | some raw =>
    if raw = [] then .error ⟨400, "\"ids\" is not allowed to be empty"⟩
    else
      let parts := (splitOnComma raw).map trimChars
      if 50 < parts.length then .error ⟨400, deleteTodosIdsMessage⟩
      else if parts.all uuidTest then .ok parts
      else .error ⟨400, deleteTodosIdsMessage⟩

/-- Embedding of the `deleteTodos` controller: validation happens before
any data access, a validation error is thrown with the table untouched;
on success `removeMany(todoIds, {user_id: userId})` runs and the response
is a bare OK. -/
def deleteTodos (queryIds : Option (List Char)) (userId : String)
    (db : List TodoRow) : Except HttpError Unit × List TodoRow :=
  match validateDeleteTodosQuery queryIds with
  | .error e => (.error e, db)
  | .ok todoIds =>
    (.ok (), (todoRemoveMany (todoIds.map List.asString) ⟨none, some userId⟩ db).1)

/-- C6: the bulk delete accepts at most 50 comma-separated identifiers and
validates every one as a well-formed UUID before touching the table: a
missing `ids` value, more than 50 chunks, or any malformed chunk rejects
the whole batch with a 400 validation error and leaves the table exactly
as it was; a batch that validates has at most 50 chunks, all well-formed,
and only then does the owner-scoped `removeMany` run. -/
theorem bulk_delete_validation (raw : List Char) (userId : String)
    (db : List TodoRow) :
    deleteTodos none userId db = (.error ⟨400, "\"ids\" is required"⟩, db) ∧
    (50 < ((splitOnComma raw).map trimChars).length →
      deleteTodos (some raw) userId db = (.error ⟨400, deleteTodosIdsMessage⟩, db)) ∧
    (∀ part ∈ (splitOnComma raw).map trimChars, uuidTest part = false →
      ∃ e : HttpError, e.status = 400 ∧
        deleteTodos (some raw) userId db = (.error e, db)) ∧
    (∀ parts, validateDeleteTodosQuery (some raw) = .ok parts →
      parts.length ≤ 50 ∧ ∀ part ∈ parts, uuidTest part = true) ∧
    (∀ parts, validateDeleteTodosQuery (some raw) = .ok parts →
      deleteTodos (some raw) userId db =
        (.ok (), (todoRemoveMany (parts.map List.asString) ⟨none, some userId⟩ db).1)) := by
  refine ⟨rfl, ?_, ?_, ?_, ?_⟩
  · intro hlen
    have hraw : ¬raw = [] := by
      intro h
      rw [h] at hlen
      simp [splitOnComma] at hlen
    simp only [deleteTodos, validateDeleteTodosQuery, if_neg hraw, if_pos hlen]
  · intro part hpart hbad
    by_cases hraw : raw = []
    · exact ⟨⟨400, "\"ids\" is not allowed to be empty"⟩, rfl, by
        simp only [deleteTodos, validateDeleteTodosQuery, if_pos hraw]⟩
    · by_cases hlen : 50 < ((splitOnComma raw).map trimChars).length
      · exact ⟨⟨400, deleteTodosIdsMessage⟩, rfl, by
          simp only [deleteTodos, validateDeleteTodosQuery, if_neg hraw, if_pos hlen]⟩
      · have hall : ¬((splitOnComma raw).map trimChars).all uuidTest = true := by
          intro hall
          rw [List.all_eq_true] at hall
          rw [hall part hpart] at hbad
          simp at hbad
        exact ⟨⟨400, deleteTodosIdsMessage⟩, rfl, by
          simp only [deleteTodos, validateDeleteTodosQuery, if_neg hraw, if_neg hlen,
            if_neg hall]⟩
  · intro parts hok
    by_cases hraw : raw = []
    · rw [validateDeleteTodosQuery, if_pos hraw] at hok
      exact absurd hok (by simp)
    · by_cases hlen : 50 < ((splitOnComma raw).map trimChars).length
      · rw [validateDeleteTodosQuery, if_neg hraw] at hok
        simp only [if_pos hlen] at hok
        exact absurd hok (by simp)
      · by_cases hall : ((splitOnComma raw).map trimChars).all uuidTest = true
        · rw [validateDeleteTodosQuery, if_neg hraw] at hok
          simp only [if_neg hlen, if_pos hall, Except.ok.injEq] at hok
          subst hok
          refine ⟨by omega, ?_⟩
          intro part hpart
          exact List.all_eq_true.mp hall part hpart
        · rw [validateDeleteTodosQuery, if_neg hraw] at hok
          simp only [if_neg hlen, if_neg hall] at hok
          exact absurd hok (by simp)
  · intro parts hok
    simp only [deleteTodos, hok]

/-- Witness for `bulk_delete_validation`: the batch `abc,def` contains the
malformed identifier `abc`, so the whole request is rejected with a 400
and the single-row table is left untouched. -/
theorem bulk_delete_validation_witness :
    ∃ e : HttpError, e.status = 400 ∧
      deleteTodos (some "abc,def".toList) "userA"
          [⟨"t1", "userA", "milk", none, false, 0, 0⟩] =
        (.error e, [⟨"t1", "userA", "milk", none, false, 0, 0⟩]) :=
  (bulk_delete_validation "abc,def".toList "userA"
      [⟨"t1", "userA", "milk", none, false, 0, 0⟩]).2.2.1
    "abc".toList (by decide) (by decide)

/-! ### src/utils/pagination.js — validatePaginationQuery -/

/-- The raw query object handed to the joi schema.  Express delivers query
values as strings; joi's number coercion is abstracted by carrying already
parsed integers for `page` and `limit`.  An absent key is `none`. -/
structure RawQuery where
  page : Option Int := none
  limit : Option Int := none
  sort_by : Option String := none
  sort_order : Option String := none
  search : Option (List Char) := none

/-- Joi message for a `page` below the minimum. -/
def pageMinMessage : String := "\"page\" must be greater than or equal to 1"

/-- Joi message for a `limit` below the minimum. -/
def limitMinMessage : String := "\"limit\" must be greater than or equal to 1"

/-- Joi message for a `limit` above the maximum. -/
def limitMaxMessage : String := "\"limit\" must be less than or equal to 100"

/-- Joi message for a `sort_by` outside the allowed values; joi
interpolates the allowed list, the model names the offending field. -/
def sortByInvalidMessage : String := "\"sort_by\" must be one of the sortable columns"

/-- Joi message for a `sort_order` outside `asc`/`desc`. -/
def sortOrderInvalidMessage : String := "\"sort_order\" must be one of [asc, desc]"

/-- Joi message for a present but empty (after trimming) string. -/
def searchEmptyMessage : String := "\"search\" is not allowed to be empty"

/-- Joi message for a search beyond 255 characters. -/
def searchMaxMessage : String :=
  "\"search\" length must be less than or equal to 255 characters long"

/-- Rule `joi.number().integer().min(1).default(1)` for `page`. -/
def validatePage : Option Int → Except HttpError Nat
  | none => .ok 1
  | some n => if n < 1 then .error ⟨400, pageMinMessage⟩ else .ok n.toNat

/-- Rule `joi.number().integer().min(1).max(100).default(10)` for `limit`. -/
def validateLimit : Option Int → Except HttpError Nat
  | none => .ok 10
  | some n =>
    if n < 1 then .error ⟨400, limitMinMessage⟩
    else if 100 < n then .error ⟨400, limitMaxMessage⟩
    else .ok n.toNat

/-- Rule `joi.string().valid(...sortableColumns).default(sortableColumns[0])`:
an absent value defaults to the first sortable column (`undefined` for an
empty column list is modelled by the empty string); a present value must
be one of the columns. -/
def validateSortBy (sortableColumns : List String) :
    Option String → Except HttpError String
  | none => .ok (sortableColumns.headD "")
  | some v =>
    if v ∈ sortableColumns then .ok v else .error ⟨400, sortByInvalidMessage⟩

/-- Rule `joi.string().valid("asc", "desc").default("desc")`. -/
def validateSortOrder : Option String → Except HttpError String
  | none => .ok "desc"
  | some v =>
    if v = "asc" ∨ v = "desc" then .ok v else .error ⟨400, sortOrderInvalidMessage⟩

/-- Rule `joi.string().trim().max(255).default("")` for `search`: joi trims the
present value first (convert mode), rejects it if the trimmed value is
empty — joi strings disallow empty by default — then checks the length;
the empty-string default fires only for an absent key. -/
def validateSearch : Option (List Char) → Except HttpError (List Char)
  | none => .ok []
  | some s =>
    let t := trimChars s
    if t = [] then .error ⟨400, searchEmptyMessage⟩
    else if 255 < t.length then .error ⟨400, searchMaxMessage⟩
    else .ok t

/-- Embedding of `validatePaginationQuery(query, sortableColumns)`: joi
validates the keys in schema order and `error.details[0]` reports the
first violation, so the object-level validation is the sequential
composition of the per-key rules. -/
def validatePaginationQuery (q : RawQuery) (sortableColumns : List String) :
    Except HttpError PaginationParams := do
  let page ← validatePage q.page
  let limit ← validateLimit q.limit
  let sort_by ← validateSortBy sortableColumns q.sort_by
  let sort_order ← validateSortOrder q.sort_order
  let search ← validateSearch q.search
  return ⟨page, limit, sort_by, sort_order, search⟩

/-- C8: a `sort_by` value outside the caller's sortable-columns list is
never accepted — the whole validation rejects, and when the earlier keys
pass their own rules the reported 400 error names `sort_by` — and an
omitted `sort_by` defaults to the first entry of the caller's list. -/
theorem sort_by_whitelist (q : RawQuery) (sortableColumns : List String) :
    (∀ v, q.sort_by = some v → v ∉ sortableColumns →
      ∀ p, validatePaginationQuery q sortableColumns ≠ .ok p) ∧
    (∀ v, q.sort_by = some v → v ∉ sortableColumns →
      (∃ a, validatePage q.page = .ok a) →
      (∃ b, validateLimit q.limit = .ok b) →
      validatePaginationQuery q sortableColumns =
        .error ⟨400, sortByInvalidMessage⟩) ∧
    (q.sort_by = none →
      ∀ p, validatePaginationQuery q sortableColumns = .ok p →
        p.sort_by = sortableColumns.headD "" ∧
        (sortableColumns ≠ [] → sortableColumns.head? = some p.sort_by)) := by
  have hbad : ∀ v, q.sort_by = some v → v ∉ sortableColumns →
      validateSortBy sortableColumns q.sort_by =
        .error ⟨400, sortByInvalidMessage⟩ := by
    intro v hv hnot
    rw [hv, validateSortBy, if_neg hnot]
  refine ⟨?_, ?_, ?_⟩
  · intro v hv hnot p hok
    rw [validatePaginationQuery] at hok
    cases hpg : validatePage q.page with
    | error e => rw [hpg] at hok; exact Except.noConfusion hok
    | ok a =>
      rw [hpg] at hok
      cases hlm : validateLimit q.limit with
      | error e => rw [hlm] at hok; exact Except.noConfusion hok
      | ok b =>
        rw [hlm, hbad v hv hnot] at hok
        exact Except.noConfusion hok
  · rintro v hv hnot ⟨a, ha⟩ ⟨b, hb⟩
    rw [validatePaginationQuery, ha, hb, hbad v hv hnot]
    rfl
  · intro hnone p hok
    rw [validatePaginationQuery] at hok
    cases hpg : validatePage q.page with
    | error e => rw [hpg] at hok; exact Except.noConfusion hok
    | ok a =>
      rw [hpg] at hok
      cases hlm : validateLimit q.limit with
      | error e => rw [hlm] at hok; exact Except.noConfusion hok
      | ok b =>
        rw [hlm, hnone] at hok
        cases hso : validateSortOrder q.sort_order with
        | error e =>
          rw [validateSortBy] at hok
          rw [hso] at hok
          exact Except.noConfusion hok
        | ok so =>
          rw [validateSortBy] at hok
          rw [hso] at hok
          cases hse : validateSearch q.search with
          | error e => rw [hse] at hok; exact Except.noConfusion hok
          | ok se =>
            rw [hse] at hok
            have hp := Except.ok.inj hok
            have hsb : p.sort_by = sortableColumns.headD "" := by
              rw [← hp]
            refine ⟨hsb, ?_⟩
            intro hne
            cases sortableColumns with
            | nil => exact absurd rfl hne
            | cons c cs => rw [hsb]; rfl

/-- Witness for `sort_by_whitelist`: the query `sort_by=hacker` against the
columns `updated_at, title` is rejected with the `sort_by` error, while an
omitted `sort_by` defaults to `updated_at`. -/
theorem sort_by_whitelist_witness :
    validatePaginationQuery ⟨none, none, some "hacker", none, none⟩
        ["updated_at", "title"] = .error ⟨400, sortByInvalidMessage⟩ ∧
    ∀ p, validatePaginationQuery ⟨none, none, none, none, none⟩
        ["updated_at", "title"] = .ok p → p.sort_by = "updated_at" := by
  constructor
  · exact (sort_by_whitelist ⟨none, none, some "hacker", none, none⟩
      ["updated_at", "title"]).2.1 "hacker" rfl (by decide) ⟨1, rfl⟩ ⟨10, rfl⟩
  · intro p hp
    have h := (sort_by_whitelist ⟨none, none, none, none, none⟩
      ["updated_at", "title"]).2.2 rfl p hp
    exact h.1

/-- A validation of the whole query object succeeds exactly when every
per-key rule succeeds with the corresponding component. -/
lemma validatePaginationQuery_ok_iff (q : RawQuery) (sortableColumns : List String)
    (p : PaginationParams) :
    validatePaginationQuery q sortableColumns = .ok p ↔
      validatePage q.page = .ok p.page ∧
      validateLimit q.limit = .ok p.limit ∧
      validateSortBy sortableColumns q.sort_by = .ok p.sort_by ∧
      validateSortOrder q.sort_order = .ok p.sort_order ∧
      validateSearch q.search = .ok p.search := by
  constructor
  · intro hok
    rw [validatePaginationQuery] at hok
    cases h1 : validatePage q.page with
    | error e => rw [h1] at hok; exact Except.noConfusion hok
    | ok a =>
      rw [h1] at hok
      cases h2 : validateLimit q.limit with
      | error e => rw [h2] at hok; exact Except.noConfusion hok
      | ok b =>
        rw [h2] at hok
        cases h3 : validateSortBy sortableColumns q.sort_by with
        | error e => rw [h3] at hok; exact Except.noConfusion hok
        | ok c =>
          rw [h3] at hok
          cases h4 : validateSortOrder q.sort_order with
          | error e => rw [h4] at hok; exact Except.noConfusion hok
          | ok d =>
            rw [h4] at hok
            cases h5 : validateSearch q.search with
            | error e => rw [h5] at hok; exact Except.noConfusion hok
            | ok s =>
              rw [h5] at hok
              have hp := Except.ok.inj hok
              rw [← hp]
              exact ⟨rfl, rfl, rfl, rfl, rfl⟩
  · rintro ⟨h1, h2, h3, h4, h5⟩
    rw [validatePaginationQuery, h1, h2, h3, h4, h5]
    rfl

/-- C10: a `search` key present with an empty value — or a value that
trims to empty — makes the whole validation throw a 400 error, never an
accepted "no search"; when the other keys pass their rules the reported
error is the `search` emptiness error; and a validation that succeeds had
either no `search` key (only then does the empty-string default apply) or
a value with non-empty trim. -/
theorem search_empty_rejected (q : RawQuery) (sortableColumns : List String) :
    (∀ s, q.search = some s → trimChars s = [] →
      ∀ p, validatePaginationQuery q sortableColumns ≠ .ok p) ∧
    (∀ s, q.search = some s → trimChars s = [] →
      (∃ a, validatePage q.page = .ok a) →
      (∃ b, validateLimit q.limit = .ok b) →
      (∃ c, validateSortBy sortableColumns q.sort_by = .ok c) →
      (∃ d, validateSortOrder q.sort_order = .ok d) →
      validatePaginationQuery q sortableColumns =
        .error ⟨400, searchEmptyMessage⟩) ∧
    (∀ p, validatePaginationQuery q sortableColumns = .ok p →
      (q.search = none → p.search = []) ∧
      (∀ s, q.search = some s → p.search = trimChars s ∧ trimChars s ≠ [])) := by
  have hserr : ∀ s, q.search = some s → trimChars s = [] →
      validateSearch q.search = .error ⟨400, searchEmptyMessage⟩ := by
    intro s hs ht
    rw [hs]
    show (if trimChars s = [] then
        (Except.error ⟨400, searchEmptyMessage⟩ : Except HttpError (List Char))
      else if 255 < (trimChars s).length then Except.error ⟨400, searchMaxMessage⟩
      else Except.ok (trimChars s)) = Except.error ⟨400, searchEmptyMessage⟩
    rw [if_pos ht]
  refine ⟨?_, ?_, ?_⟩
  · intro s hs ht p hok
    have h := (validatePaginationQuery_ok_iff q sortableColumns p).mp hok
    rw [hserr s hs ht] at h
    exact absurd h.2.2.2.2 (by simp)
  · rintro s hs ht ⟨a, ha⟩ ⟨b, hb⟩ ⟨c, hc⟩ ⟨d, hd⟩
    rw [validatePaginationQuery, ha, hb, hc, hd, hserr s hs ht]
    rfl
  · intro p hok
    have h := (validatePaginationQuery_ok_iff q sortableColumns p).mp hok
    have hse := h.2.2.2.2
    constructor
    · intro hnone
      rw [hnone] at hse
      exact (Except.ok.inj hse).symm
    · intro s hs
      rw [hs] at hse
      have hse2 : (if trimChars s = [] then
          (Except.error ⟨400, searchEmptyMessage⟩ : Except HttpError (List Char))
        else if 255 < (trimChars s).length then Except.error ⟨400, searchMaxMessage⟩
        else Except.ok (trimChars s)) = Except.ok p.search := hse
      by_cases ht : trimChars s = []
      · rw [if_pos ht] at hse2
        exact absurd hse2 (by simp)
      · rw [if_neg ht] at hse2
        by_cases hlen : 255 < (trimChars s).length
        · rw [if_pos hlen] at hse2
          exact absurd hse2 (by simp)
        · rw [if_neg hlen] at hse2
          exact ⟨(Except.ok.inj hse2).symm, ht⟩

/-- Witness for `search_empty_rejected`: a query whose `search` is three
spaces is rejected with the `search` emptiness error, while the same query
without the key validates with the empty-string default. -/
theorem search_empty_rejected_witness :
    validatePaginationQuery ⟨none, none, none, none, some [' ', ' ', ' ']⟩
        ["updated_at", "title"] = .error ⟨400, searchEmptyMessage⟩ ∧
    ∀ p, validatePaginationQuery ⟨none, none, none, none, none⟩
        ["updated_at", "title"] = .ok p → p.search = [] := by
  constructor
  · exact (search_empty_rejected ⟨none, none, none, none, some [' ', ' ', ' ']⟩
      ["updated_at", "title"]).2.1 [' ', ' ', ' '] rfl (by decide)
      ⟨1, rfl⟩ ⟨10, rfl⟩ ⟨"updated_at", rfl⟩ ⟨"desc", rfl⟩
  · intro p hp
    exact ((search_empty_rejected ⟨none, none, none, none, none⟩
      ["updated_at", "title"]).2.2 p hp).1 rfl

/-! ### Authentication controller — signin -/

/-- A row of the `users` table as `findOneWithPassword` selects it. -/
structure UserRow where
  id : String
  username : String
  password : String
  deriving Repr, DecidableEq

/-- Embedding of `findOneWithPassword({username})`:
`select("*").where(conditions).first()` on the users table. -/
def findOneWithPassword (username : String) (db : List UserRow) : Option UserRow :=
  (db.filter fun u => u.username == username).head?

/-- The `signinSchema` username rule: 3 to 30 characters, each from the
class `[a-zA-Z0-9._-]`. -/
def usernameOk (u : String) : Bool :=
  decide (3 ≤ u.length) && decide (u.length ≤ 30) &&
    u.toList.all fun c => c.isAlphanum || c == '.' || c == '_' || c == '-'

/-- The `signinSchema` password rule: 8 to 72 characters. -/
def passwordOk (p : String) : Bool :=
  decide (8 ≤ p.length) && decide (p.length ≤ 72)

/-- Message of the 400 error for a username failing its schema rule (joi
picks the text of the specific violated rule; the model uses one text per
field). -/
def usernameInvalidMessage : String := "\"username\" fails its validation rules"

/-- Message of the 400 error for a password failing its schema rule. -/
def passwordInvalidMessage : String := "\"password\" fails its validation rules"

/-- A finished HTTP response: the status code and the `apiResponse` body
`message` plus `data`. -/
structure ApiResult (α : Type) where
  status : Nat
  message : String
  data : Option α
  deriving Repr, DecidableEq

/-- The data object a successful signin returns. -/
structure SigninData where
  id : String
  username : String
  access_token : JwtToken
  refresh_token : JwtToken
  deriving Repr, DecidableEq

/-- Embedding of the `signin` controller: validate the body, look the user
up by username, verify the password, only then issue both tokens.  A
thrown `HttpError` is rendered by the error-handling middleware as its
status and message with `data: null`. -/
def signin (mac : Nat → JwtPayload → Nat) (env : JwtEnv) (now : Nat)
    (verifyPassword : String → String → Bool) (db : List UserRow)
    (username password : String) : ApiResult SigninData :=
  if !usernameOk username then ⟨400, usernameInvalidMessage, none⟩
  else if !passwordOk password then ⟨400, passwordInvalidMessage, none⟩
  else
    match findOneWithPassword username db with
    | none => ⟨401, "invalid credentials", none⟩
    | some user =>
      if !verifyPassword user.password password then
        ⟨401, "invalid credentials", none⟩
      else
        ⟨200, "OK", some ⟨user.id, user.username,
          generateAccessToken mac env now user.id,
          generateRefreshToken mac env now user.id⟩⟩

/-- C9: for schema-passing credentials, a signin that fails because the
username does not exist and a signin that fails because the password is
wrong for an existing username produce the same response: 401 with the
identical message "invalid credentials" and the identical body shape
(`data: null`) — the two failures are indistinguishable to the client. -/
theorem signin_no_user_enumeration (mac : Nat → JwtPayload → Nat)
    (env : JwtEnv) (now : Nat) (verifyPassword : String → String → Bool)
    (db : List UserRow) (u1 p1 u2 p2 : String) (user : UserRow)
    (hu1 : usernameOk u1 = true) (hp1 : passwordOk p1 = true)
    (hu2 : usernameOk u2 = true) (hp2 : passwordOk p2 = true)
    (hmiss : findOneWithPassword u1 db = none)
    (hfound : findOneWithPassword u2 db = some user)
    (hwrong : verifyPassword user.password p2 = false) :
    signin mac env now verifyPassword db u1 p1 =
      ⟨401, "invalid credentials", none⟩ ∧
    signin mac env now verifyPassword db u2 p2 =
      ⟨401, "invalid credentials", none⟩ ∧
    signin mac env now verifyPassword db u1 p1 =
      signin mac env now verifyPassword db u2 p2 := by
  have h1 : signin mac env now verifyPassword db u1 p1 =
      ⟨401, "invalid credentials", none⟩ := by
    rw [signin, hu1, hp1, hmiss]
    rfl
  have h2 : signin mac env now verifyPassword db u2 p2 =
      ⟨401, "invalid credentials", none⟩ := by
    rw [signin, hu2, hp2, hfound]
    simp [hwrong]
  exact ⟨h1, h2, h1.trans h2.symm⟩

/-- Witness for `signin_no_user_enumeration`: an unknown username and a
known username with a rejected password both yield exactly
401 "invalid credentials" with a null data field. -/
theorem signin_no_user_enumeration_witness :
    signin (fun _ _ => 0) ⟨1, 2, 10, 100⟩ 0 (fun _ _ => false)
        [⟨"id1", "alice", "digestA"⟩] "nobody" "password1" =
      ⟨401, "invalid credentials", none⟩ ∧
    signin (fun _ _ => 0) ⟨1, 2, 10, 100⟩ 0 (fun _ _ => false)
        [⟨"id1", "alice", "digestA"⟩] "alice" "password1" =
      ⟨401, "invalid credentials", none⟩ := by
  have h := signin_no_user_enumeration (fun _ _ => 0) ⟨1, 2, 10, 100⟩ 0
    (fun _ _ => false) [⟨"id1", "alice", "digestA"⟩]
    "nobody" "password1" "alice" "password1" ⟨"id1", "alice", "digestA"⟩
    (by decide) (by decide) (by decide) (by decide) rfl rfl rfl
  exact ⟨h.1, h.2.1⟩

end ExpressTemplate
